import Mathlib

/-!
Verification of the FinancaPessoalDJ core: a shallow embedding in Lean 4 of the
personal-finance tracker's aggregation engine (dashboard monthly summary,
per-category budget report), installment expander, transaction mutations,
category CRUD guards, member-account creation and the register/login flow.

Modelling conventions:
* JS `number` amounts are embedded as `ℚ` (exact arithmetic; the source uses
  binary floating point, so float-rounding caveats in the claims become exact
  equalities here).
* The `"YYYY-MM-DD"` date strings of the source are embedded as `YMD` records
  (year, 1-based month, day); the split/format round-trips of the source are
  the identity under this representation.
* `new Date(year, monthIndex, day)` normalization (month indices ≥ 12 roll
  into later years, day counts past the month length roll into later months)
  is embedded by `mkDateJS` below.
* Asynchronous storage/auth calls are embedded as pure functions taking the
  provider's replies as explicit arguments and returning the list of calls
  they issue.
-/

namespace Financa

/-- Transaction kind (`TransactionType` in `types.ts`). -/
inductive TransactionType
  | income
  | expense
deriving DecidableEq, Repr

/-- Transaction status (`TransactionStatus` in `types.ts`). -/
inductive TransactionStatus
  | paid
  | pending
deriving DecidableEq, Repr

/-- Category kind (`'income' | 'expense' | 'both'` in `types.ts`). -/
inductive CategoryType
  | income
  | expense
  | both
deriving DecidableEq, Repr

/-- A calendar date, standing for the `"YYYY-MM-DD"` strings of the source
(`month` is 1-based as in the string representation). -/
structure YMD where
  year : Nat
  month : Nat
  day : Nat
deriving DecidableEq, Repr

/-- Installment descriptor (`installments` field in `types.ts`). -/
structure Installments where
  current : Nat
  total : Nat
deriving DecidableEq, Repr

/-- The `Despesa` transaction record of `types.ts`. -/
structure Despesa where
  id : String
  title : String
  amount : ℚ
  type : TransactionType
  category : String
  date : YMD
  status : TransactionStatus
  paymentDate : Option YMD := none
  createdAt : Option String := none
  observation : Option String := none
  installments : Option Installments := none
deriving DecidableEq, Repr

/-- The `Category` record of `types.ts` (`budget` is optional there). -/
structure Category where
  id : String
  name : String
  type : CategoryType
  budget : Option ℚ := none
deriving DecidableEq, Repr

/-! ## C1: dashboard monthly summary (`dashboardData` in the App component) -/

/-- Shape of the `dashboardData` memo value (the source also carries the
filtered list; `total` is what the spec calls `balance`). -/
structure DashboardData where
  income : ℚ
  expense : ℚ
  pending : ℚ
  total : ℚ
  savingsRate : ℚ
  filteredTransactions : List Despesa
deriving DecidableEq, Repr

/-- The month/year filter of `dashboardData`: the source splits `t.date` into
`[y, m]` and keeps transactions with `(m - 1) === filterMonth && y === filterYear`. -/
def inMonthFilter (filterMonth filterYear : Int) (t : Despesa) : Bool :=
  ((t.date.month : Int) - 1 == filterMonth) && ((t.date.year : Int) == filterYear)

/-- One step of the accumulation loop of `dashboardData`
(accumulator is `(income, expense, pending)`). -/
def dashStep (acc : ℚ × ℚ × ℚ) (t : Despesa) : ℚ × ℚ × ℚ :=
  if t.type = .income ∧ t.status = .paid then
    (acc.1 + t.amount, acc.2.1, acc.2.2)
  else if t.type = .expense then
    if t.status = .paid then
      (acc.1, acc.2.1 + t.amount, acc.2.2)
    else
      (acc.1, acc.2.1, acc.2.2 + t.amount)
  else acc

/-- The `dashboardData` memo of the App component: filter the transactions to
the selected month, accumulate the three totals, then derive balance and
savings rate. -/
def dashboardData (despesas : List Despesa) (filterMonth filterYear : Int) : DashboardData :=
  let filtered := despesas.filter (inMonthFilter filterMonth filterYear)
  let totals := filtered.foldl dashStep (0, 0, 0)
  let income := totals.1
  let expense := totals.2.1
  let pending := totals.2.2
  let total := income - expense
  let savingsRate : ℚ := if income > 0 then ((income - expense) / income) * 100 else 0
  { income := income, expense := expense, pending := pending, total := total,
    savingsRate := savingsRate, filteredTransactions := filtered }

/-- Spec-side bucket: paid income. -/
def isIncomePaid (t : Despesa) : Bool :=
  t.type == .income && t.status == .paid

/-- Spec-side bucket: paid expense. -/
def isExpensePaid (t : Despesa) : Bool :=
  t.type == .expense && t.status == .paid

/-- Spec-side bucket: pending expense. -/
def isExpensePending (t : Despesa) : Bool :=
  t.type == .expense && t.status == .pending

/-- Sum of the amounts of a list of transactions. -/
def sumAmounts (ts : List Despesa) : ℚ :=
  (ts.map Despesa.amount).sum

theorem dashStep_foldl (ts : List Despesa) (a b c : ℚ) :
    ts.foldl dashStep (a, b, c) =
      (a + sumAmounts (ts.filter isIncomePaid),
       b + sumAmounts (ts.filter isExpensePaid),
       c + sumAmounts (ts.filter isExpensePending)) := by
  induction ts generalizing a b c with
  | nil => simp [sumAmounts]
  | cons t ts ih =>
    cases ht : t.type <;> cases hs : t.status <;>
      simp [List.foldl_cons, dashStep, isIncomePaid, isExpensePaid, isExpensePending,
        sumAmounts, ht, hs, ih, add_assoc]

theorem sumAmounts_nonneg (ts : List Despesa) (h : ∀ t ∈ ts, 0 ≤ t.amount) :
    0 ≤ sumAmounts ts := by
  refine List.sum_nonneg ?_
  intro x hx
  rcases List.mem_map.mp hx with ⟨t, ht, rfl⟩
  exact h t ht

/-- Claim C1: for every transaction list and month/year filter, the monthly
summary satisfies: `income` is the sum of amounts of that month's paid income
transactions, `expense` the sum for paid expenses, `pending` the sum for
pending expenses, `total` (the spec's balance) equals `income − expense`
exactly, and `savingsRate` is `0` when `income = 0` and
`(income − expense) / income × 100` otherwise.  The hypothesis restricts to
valid inputs: transaction amounts are nonnegative (the data model stores
positive decimals). -/
theorem dashboard_monthly_summary_correct (despesas : List Despesa)
    (filterMonth filterYear : Int)
    (hpos : ∀ t ∈ despesas, 0 ≤ t.amount) :
    let D := dashboardData despesas filterMonth filterYear
    let filtered := despesas.filter (inMonthFilter filterMonth filterYear)
    D.income = sumAmounts (filtered.filter isIncomePaid) ∧
    D.expense = sumAmounts (filtered.filter isExpensePaid) ∧
    D.pending = sumAmounts (filtered.filter isExpensePending) ∧
    D.total = D.income - D.expense ∧
    (D.income = 0 → D.savingsRate = 0) ∧
    (D.income ≠ 0 → D.savingsRate = (D.income - D.expense) / D.income * 100) := by
  intro D filtered
  have hfactor : ∀ t ∈ filtered, 0 ≤ t.amount := by
    intro t ht
    exact hpos t (List.mem_of_mem_filter ht)
  have hfold := dashStep_foldl filtered 0 0 0
  have hD : D = { income := sumAmounts (filtered.filter isIncomePaid),
                  expense := sumAmounts (filtered.filter isExpensePaid),
                  pending := sumAmounts (filtered.filter isExpensePending),
                  total := sumAmounts (filtered.filter isIncomePaid)
                    - sumAmounts (filtered.filter isExpensePaid),
                  savingsRate := if sumAmounts (filtered.filter isIncomePaid) > 0 then
                      ((sumAmounts (filtered.filter isIncomePaid)
                        - sumAmounts (filtered.filter isExpensePaid))
                        / sumAmounts (filtered.filter isIncomePaid)) * 100
                    else 0,
                  filteredTransactions := filtered } := by
    show dashboardData despesas filterMonth filterYear = _
    unfold dashboardData
    dsimp only
    rw [hfold]
    simp
  have hincome_nonneg : 0 ≤ sumAmounts (filtered.filter isIncomePaid) := by
    refine sumAmounts_nonneg _ ?_
    intro t ht
    exact hfactor t (List.mem_of_mem_filter ht)
  refine ⟨by rw [hD], by rw [hD], by rw [hD], by rw [hD], ?_, ?_⟩
  · intro h0
    rw [hD] at h0 ⊢
    simp only at h0 ⊢
    rw [h0]
    simp
  · intro hne
    rw [hD] at hne ⊢
    simp only at hne ⊢
    have hlt : 0 < sumAmounts (filtered.filter isIncomePaid) :=
      lt_of_le_of_ne hincome_nonneg (Ne.symm hne)
    rw [if_pos hlt]

/-- Example transaction list from the spec's scenario 1. -/
def exampleC1 : List Despesa :=
  [{ id := "1", title := "Salario Mensal", amount := 5000, type := .income,
     category := "Trabalho", date := ⟨2024, 1, 5⟩, status := .paid },
   { id := "2", title := "Supermercado", amount := 1200, type := .expense,
     category := "Alimentacao", date := ⟨2024, 1, 10⟩, status := .paid },
   { id := "3", title := "Aluguel", amount := 300, type := .expense,
     category := "Casa", date := ⟨2024, 1, 15⟩, status := .pending }]

/-- Witness for C1 at the spec's scenario-1 data (January 2024 filter). -/
theorem dashboard_monthly_summary_correct_witness :
    (∀ t ∈ exampleC1, 0 ≤ t.amount) ∧
    (let D := dashboardData exampleC1 0 2024
     let filtered := exampleC1.filter (inMonthFilter 0 2024)
     D.income = sumAmounts (filtered.filter isIncomePaid) ∧
     D.expense = sumAmounts (filtered.filter isExpensePaid) ∧
     D.pending = sumAmounts (filtered.filter isExpensePending) ∧
     D.total = D.income - D.expense ∧
     (D.income = 0 → D.savingsRate = 0) ∧
     (D.income ≠ 0 → D.savingsRate = (D.income - D.expense) / D.income * 100)) :=
  ⟨by decide, dashboard_monthly_summary_correct exampleC1 0 2024 (by decide)⟩

/-! ## JS calendar model (`new Date(year, monthIndex, day)` normalization) -/

/-- Gregorian leap-year rule (as implemented by the JS `Date` object). -/
def isLeapYear (y : Nat) : Bool :=
  y % 4 == 0 && (y % 100 != 0 || y % 400 == 0)

/-- Number of days of month index `m` (0 = January … 11 = December) of year `y`. -/
def daysInMonth (y m : Nat) : Nat :=
  match m with
  | 1 => if isLeapYear y then 29 else 28
  | 3 => 30
  | 5 => 30
  | 8 => 30
  | 10 => 30
  | _ => 31

theorem daysInMonth_pos (y m : Nat) : 0 < daysInMonth y m := by
  unfold daysInMonth
  split
  · split <;> omega
  all_goals omega

/-- Roll a day count `d` (counted from day 1 of month `m` of year `y`) forward
over month boundaries, as the JS `Date` normalization does for day values past
the month length.  The fuel argument is always instantiated with `d`, which
suffices because every recursive step removes at least 28 days. -/
def rollDaysAux : Nat → Nat → Nat → Nat → Nat × Nat × Nat
  | 0, y, m, d => (y, m, d)
  | fuel + 1, y, m, d =>
    if d ≤ daysInMonth y m then (y, m, d)
    else if m == 11 then rollDaysAux fuel (y + 1) 0 (d - daysInMonth y m)
    else rollDaysAux fuel y (m + 1) (d - daysInMonth y m)

/-- The JS `new Date(y, mIdx, d)` normalization for `d ≥ 1`: month indices are
first reduced into the year, then day overflow rolls into later months.
Returns `(fullYear, monthIndex, dayOfMonth)` as read back by `getFullYear`,
`getMonth`, `getDate`. -/
def mkDateJS (y mIdx d : Nat) : Nat × Nat × Nat :=
  rollDaysAux d (y + mIdx / 12) (mIdx % 12) d

/-- The `"${y}-${m}-${d}"` formatting step of `handleAddDespesa` applied to a
normalized JS date: `getMonth() + 1` turns the month index back into the
1-based month of the date string. -/
def jsDateYMD (y mIdx d : Nat) : YMD :=
  let r := mkDateJS y mIdx d
  ⟨r.1, r.2.1 + 1, r.2.2⟩

theorem rollDaysAux_of_le (fuel y m d : Nat) (h : d ≤ daysInMonth y m) :
    rollDaysAux fuel y m d = (y, m, d) := by
  cases fuel with
  | zero => rfl
  | succ fuel => simp [rollDaysAux, h]

/-! ## C2/C3: installment expander (`handleAddDespesa`) -/

/-- Body of the `for (let i = 0; i < installmentsCount; i++)` loop of
`handleAddDespesa`: the record pushed for installment `i`. -/
def installmentRecord (ids : Nat → String) (createdAt : String)
    (title : String) (amount : ℚ) (type : TransactionType) (category : String)
    (status : TransactionStatus) (date : YMD) (paymentDate : Option YMD)
    (installmentsCount : Nat) (observation : Option String) (i : Nat) : Despesa :=
  { id := ids i
    title := title
    amount := amount / (installmentsCount : ℚ)
    type := type
    category := category
    date := jsDateYMD date.year (date.month - 1 + i) date.day
    status := if i = 0 then status else .pending
    paymentDate := if i = 0 ∧ status = .paid then paymentDate else none
    createdAt := some createdAt
    observation := if i = 0 then observation else none
    installments := some ⟨i + 1, installmentsCount⟩ }

/-- The transaction records built by `handleAddDespesa` before they are sent
to storage.  `ids` stands for the successive `uuidv4()` draws and `createdAt`
for the captured `new Date().toISOString()`; both are data the function does
not inspect.  An expense with `installmentsCount > 1` is expanded into one
record per installment; anything else yields a single record. -/
def buildNewTransactions (ids : Nat → String) (createdAt : String)
    (title : String) (amount : ℚ) (type : TransactionType) (category : String)
    (status : TransactionStatus) (date : YMD) (paymentDate : Option YMD)
    (installmentsCount : Nat) (observation : Option String) : List Despesa :=
  if type = .expense ∧ installmentsCount > 1 then
    (List.range installmentsCount).map
      (installmentRecord ids createdAt title amount type category status date
        paymentDate installmentsCount observation)
  else
    [{ id := ids 0
       title := title
       amount := amount
       type := type
       category := category
       date := date
       status := status
       paymentDate := if status = .paid ∧ type = .expense then paymentDate else none
       createdAt := some createdAt
       observation := observation
       installments := none }]

theorem sum_const_range (n : Nat) (c : ℚ) :
    ((List.range n).map (fun _ => c)).sum = (n : ℚ) * c := by
  induction n with
  | zero => simp
  | succ n ih =>
    rw [List.range_succ]
    simp [ih]
    ring

theorem countP_range_eq_one (N : Nat) (p : Nat → Bool) (hN : 0 < N)
    (h0 : p 0 = true) (hs : ∀ i, p (i + 1) = false) :
    (List.range N).countP p = 1 := by
  obtain ⟨m, rfl⟩ : ∃ m, N = m + 1 := ⟨N - 1, by omega⟩
  rw [List.range_succ_eq_map, List.countP_cons, List.countP_map]
  have hz : (List.range m).countP (p ∘ Nat.succ) = 0 := by
    apply List.countP_eq_zero.mpr
    intro a _
    simp [Function.comp, hs a]
  rw [hz, h0]
  simp

/-- Claim C2: an expense with installment count `N > 1` and total amount `A`
expands into exactly `N` records, each of amount `A / N` (summing back to `A`
exactly over `ℚ`), the `i`-th carrying descriptor `(current, total) = (i+1, N)`
with exactly one record at `current = 1`; the first record keeps the supplied
status, payment date (only when that status is paid) and observation, and all
later records are pending with no payment date and no observation. -/
theorem installment_expansion_correct (ids : Nat → String) (createdAt : String)
    (title : String) (amount : ℚ) (category : String) (status : TransactionStatus)
    (date : YMD) (paymentDate : Option YMD) (N : Nat) (observation : Option String)
    (hN : 1 < N) :
    let out := buildNewTransactions ids createdAt title amount .expense category
      status date paymentDate N observation
    out.length = N ∧
    (∀ r ∈ out, r.amount = amount / (N : ℚ)) ∧
    sumAmounts out = amount ∧
    (∀ i, i < N → out[i]?.map Despesa.installments = some (some ⟨i + 1, N⟩)) ∧
    out.countP (fun r => r.installments.map Installments.current == some 1) = 1 ∧
    (∀ r, out[0]? = some r →
      r.status = status ∧
      r.paymentDate = (if status = .paid then paymentDate else none) ∧
      r.observation = observation) ∧
    (∀ i r, 0 < i → out[i]? = some r →
      r.status = .pending ∧ r.paymentDate = none ∧ r.observation = none) := by
  intro out
  have hcond : (TransactionType.expense = TransactionType.expense ∧ N > 1) := ⟨rfl, hN⟩
  have hout : out = (List.range N).map
      (installmentRecord ids createdAt title amount .expense category status date
        paymentDate N observation) := by
    show buildNewTransactions ids createdAt title amount .expense category
      status date paymentDate N observation = _
    unfold buildNewTransactions
    rw [if_pos hcond]
  have hlen : out.length = N := by rw [hout]; simp
  have hNne : (N : ℚ) ≠ 0 := Nat.cast_ne_zero.mpr (by omega)
  have hidx : ∀ i, i < N → out[i]? =
      some (installmentRecord ids createdAt title amount .expense category status date
        paymentDate N observation i) := by
    intro i hi
    rw [hout, List.getElem?_map, List.getElem?_range hi, Option.map_some']
  refine ⟨hlen, ?_, ?_, ?_, ?_, ?_, ?_⟩
  · rw [hout]
    intro r hr
    rcases List.mem_map.mp hr with ⟨i, _, rfl⟩
    rfl
  · rw [hout]
    show sumAmounts _ = amount
    unfold sumAmounts
    rw [List.map_map]
    show ((List.range N).map (fun _ => amount / (N : ℚ))).sum = amount
    rw [sum_const_range]
    field_simp
  · intro i hi
    rw [hidx i hi]
    rfl
  · rw [hout, List.countP_map]
    exact countP_range_eq_one N _ (by omega) rfl (fun i => rfl)
  · intro r hr
    rw [hidx 0 (by omega)] at hr
    injection hr with hr
    subst hr
    refine ⟨rfl, ?_, rfl⟩
    simp [installmentRecord]
  · intro i r hi0 hr
    have hiN : i < N := by
      by_contra hcon
      push_neg at hcon
      rw [hout, List.getElem?_eq_none (by simpa using hcon)] at hr
      exact Option.noConfusion hr
    rw [hidx i hiN] at hr
    injection hr with hr
    subst hr
    have hine : i ≠ 0 := by omega
    refine ⟨?_, ?_, ?_⟩ <;> simp [installmentRecord, hine]

/-- Witness for C2: amount 900 split into 3 installments starting 2024-01-15,
first installment paid. -/
theorem installment_expansion_correct_witness :
    (1 < 3) ∧
    (let out := buildNewTransactions (fun _ => "id") "2024-01-15T00:00:00Z" "Compra" 900 .expense
      "Casa" .paid ⟨2024, 1, 15⟩ (some ⟨2024, 1, 15⟩) 3 (some "obs")
     out.length = 3 ∧
     (∀ r ∈ out, r.amount = 900 / (3 : ℚ)) ∧
     sumAmounts out = 900 ∧
     (∀ i, i < 3 → out[i]?.map Despesa.installments = some (some ⟨i + 1, 3⟩)) ∧
     out.countP (fun r => r.installments.map Installments.current == some 1) = 1 ∧
     (∀ r, out[0]? = some r →
       r.status = .paid ∧
       r.paymentDate = (if TransactionStatus.paid = .paid then some ⟨2024, 1, 15⟩ else none) ∧
       r.observation = some "obs") ∧
     (∀ i r, 0 < i → out[i]? = some r →
       r.status = .pending ∧ r.paymentDate = none ∧ r.observation = none)) :=
  ⟨by decide,
   installment_expansion_correct (fun _ => "id") "2024-01-15T00:00:00Z" "Compra" 900 "Casa"
     .paid ⟨2024, 1, 15⟩ (some ⟨2024, 1, 15⟩) 3 (some "obs") (by decide)⟩

/-- Shared shape lemma: for an expense with more than one installment,
`handleAddDespesa` builds exactly the mapped installment records. -/
theorem buildNewTransactions_expense (ids : Nat → String) (createdAt : String)
    (title : String) (amount : ℚ) (category : String) (status : TransactionStatus)
    (date : YMD) (paymentDate : Option YMD) (N : Nat) (observation : Option String)
    (hN : 1 < N) :
    buildNewTransactions ids createdAt title amount .expense category status date
        paymentDate N observation =
      (List.range N).map (installmentRecord ids createdAt title amount .expense category
        status date paymentDate N observation) := by
  unfold buildNewTransactions
  rw [if_pos ⟨rfl, hN⟩]

/-- Stated from the spec sentence of C3: `d2` is exactly one calendar month
after `d1` with the same day-of-month. -/
def oneMonthLaterSameDay (d1 d2 : YMD) : Prop :=
  d2.day = d1.day ∧
  ((d1.month = 12 ∧ d2.year = d1.year + 1 ∧ d2.month = 1) ∨
   (d1.month ≠ 12 ∧ d2.year = d1.year ∧ d2.month = d1.month + 1))

/-- Stated from the spec sentence of C3: every pair of consecutive records in
the list has due dates one calendar month apart with the same day-of-month. -/
def dueDatesMonthlySpaced (out : List Despesa) : Prop :=
  ∀ i d1 d2, (out.map Despesa.date)[i]? = some d1 →
    (out.map Despesa.date)[i + 1]? = some d2 → oneMonthLaterSameDay d1 d2

/-- The expansion of an expense of 900 into 2 installments starting
2024-01-31. -/
def c3out : List Despesa :=
  buildNewTransactions (fun _ => "id") "2024-01-31T00:00:00Z" "Compra" 900 .expense "Casa"
    .pending ⟨2024, 1, 31⟩ none 2 none

/-- Claim C3 counterexample: starting an expansion at 2024-01-31 with 2
installments, the JS `Date` day-overflow produces 2024-03-02 as the second due
date (February 2024 has only 29 days), which neither shares the day-of-month
with 2024-01-31 nor is one calendar month after it. -/
theorem installment_due_dates_counterexample :
    c3out.map Despesa.date = [⟨2024, 1, 31⟩, ⟨2024, 3, 2⟩] ∧
    ¬ dueDatesMonthlySpaced c3out := by
  refine ⟨by decide, ?_⟩
  intro h
  have h01 := h 0 ⟨2024, 1, 31⟩ ⟨2024, 3, 2⟩ (by decide) (by decide)
  exact absurd h01.1 (by decide)

/-- Claim C3 (amended): whenever the start day-of-month fits in every target
month of the expansion (the spec's acknowledged JS-overflow edge case is
excluded), the `i`-th installment's due date is the first due date advanced by
`i` calendar months with the day-of-month preserved, and consecutive
installments are exactly one calendar month apart with the same day-of-month. -/
theorem installment_due_dates_amended (ids : Nat → String) (createdAt title : String)
    (amount : ℚ) (category : String) (status : TransactionStatus) (start : YMD)
    (paymentDate : Option YMD) (N : Nat) (observation : Option String)
    (hN : 1 < N) (_hm : 1 ≤ start.month)
    (hfit : ∀ i, i < N →
      start.day ≤ daysInMonth (start.year + (start.month - 1 + i) / 12)
        ((start.month - 1 + i) % 12)) :
    let out := buildNewTransactions ids createdAt title amount .expense category status start
      paymentDate N observation
    (∀ i, i < N → (out.map Despesa.date)[i]? =
      some ⟨start.year + (start.month - 1 + i) / 12,
            (start.month - 1 + i) % 12 + 1, start.day⟩) ∧
    dueDatesMonthlySpaced out := by
  intro out
  have hout : out = (List.range N).map
      (installmentRecord ids createdAt title amount .expense category status start
        paymentDate N observation) :=
    buildNewTransactions_expense ids createdAt title amount category status start
      paymentDate N observation hN
  have hdate : ∀ i, i < N → (out.map Despesa.date)[i]? =
      some ⟨start.year + (start.month - 1 + i) / 12,
            (start.month - 1 + i) % 12 + 1, start.day⟩ := by
    intro i hi
    rw [hout, List.map_map, List.getElem?_map, List.getElem?_range hi, Option.map_some']
    show some (jsDateYMD start.year (start.month - 1 + i) start.day) = _
    unfold jsDateYMD mkDateJS
    rw [rollDaysAux_of_le _ _ _ _ (hfit i hi)]
  refine ⟨hdate, ?_⟩
  intro i d1 d2 h1 h2
  have hlen : (out.map Despesa.date).length = N := by rw [hout]; simp
  have hi1 : i + 1 < N := by
    by_contra hcon
    push_neg at hcon
    rw [List.getElem?_eq_none (by omega)] at h2
    exact Option.noConfusion h2
  have hiN : i < N := by omega
  rw [hdate i hiN] at h1
  rw [hdate (i + 1) hi1] at h2
  injection h1 with h1
  injection h2 with h2
  subst h1
  subst h2
  have hk : start.month - 1 + (i + 1) = (start.month - 1 + i) + 1 := by omega
  rw [hk]
  unfold oneMonthLaterSameDay
  dsimp only
  refine ⟨rfl, ?_⟩
  omega

/-- Witness for the amended C3: 3 installments starting 2024-01-15; day 15
fits in January, February and March 2024. -/
theorem installment_due_dates_amended_witness :
    ((1 : Nat) < 3 ∧ 1 ≤ (⟨2024, 1, 15⟩ : YMD).month ∧
     (∀ i, i < 3 →
       (⟨2024, 1, 15⟩ : YMD).day ≤
         daysInMonth ((⟨2024, 1, 15⟩ : YMD).year + ((⟨2024, 1, 15⟩ : YMD).month - 1 + i) / 12)
           (((⟨2024, 1, 15⟩ : YMD).month - 1 + i) % 12))) ∧
    (let out := buildNewTransactions (fun _ => "id") "2024-01-15T00:00:00Z" "Compra" 900
      .expense "Casa" .pending ⟨2024, 1, 15⟩ none 3 none
     (∀ i, i < 3 → (out.map Despesa.date)[i]? =
       some ⟨(⟨2024, 1, 15⟩ : YMD).year + ((⟨2024, 1, 15⟩ : YMD).month - 1 + i) / 12,
             ((⟨2024, 1, 15⟩ : YMD).month - 1 + i) % 12 + 1, (⟨2024, 1, 15⟩ : YMD).day⟩) ∧
     dueDatesMonthlySpaced out) :=
  ⟨⟨by decide, by decide, by decide⟩,
   installment_due_dates_amended (fun _ => "id") "2024-01-15T00:00:00Z" "Compra" 900 "Casa"
     .pending ⟨2024, 1, 15⟩ none 3 none (by decide) (by decide) (by decide)⟩

/-! ## C4: payment-date handling in the transaction mutations -/

/-- `handleUpdateDespesa`: the record actually persisted and stored in state
(`finalDespesa`), with the payment date kept only for paid expenses. -/
def updateDespesaFinal (updatedDespesa : Despesa) : Despesa :=
  { updatedDespesa with
      paymentDate :=
        if updatedDespesa.status = .paid ∧ updatedDespesa.type = .expense then
          updatedDespesa.paymentDate
        else none }

/-- `handleToggleStatus`: flip paid/pending; when the new status is paid, keep
the existing payment date or fall back to the current local date (`today`
stands for `getCurrentLocalDateString()`); otherwise clear it.  Note the
source checks no transaction kind here. -/
def toggleStatus (today : YMD) (t : Despesa) : Despesa :=
  let newStatus : TransactionStatus := if t.status = .paid then .pending else .paid
  { t with
      status := newStatus
      paymentDate := if newStatus = .paid then some (t.paymentDate.getD today) else none }

/-- `handleMarkAsPaid`: the local state update mirroring the bulk
`status = paid, payment_date = paymentDate` storage write for every listed id.
Note the source checks no transaction kind here either. -/
def markAsPaidLocal (ids : List String) (paymentDate : YMD) (despesas : List Despesa) :
    List Despesa :=
  despesas.map fun t =>
    if ids.contains t.id then { t with status := .paid, paymentDate := some paymentDate }
    else t

/-- The spec's data-model invariant: a payment date is present only on a paid
expense. -/
abbrev paymentDateInvariant (t : Despesa) : Prop :=
  t.paymentDate ≠ none → t.status = .paid ∧ t.type = .expense

/-- A pending income transaction (as rendered by the income list, whose rows
invoke the status toggle). -/
def c4income : Despesa :=
  { id := "i1", title := "Salario", amount := 100, type := .income,
    category := "Trabalho", date := ⟨2024, 1, 5⟩, status := .pending }

/-- Claim C4 counterexample: toggling a pending income transaction (as the
income list allows) produces a paid income transaction carrying a payment
date, so the mutation does not keep payment dates off income transactions. -/
theorem payment_date_invariant_counterexample :
    (toggleStatus ⟨2024, 1, 10⟩ c4income).status = .paid ∧
    (toggleStatus ⟨2024, 1, 10⟩ c4income).type = .income ∧
    (toggleStatus ⟨2024, 1, 10⟩ c4income).paymentDate = some ⟨2024, 1, 10⟩ ∧
    ¬ paymentDateInvariant (toggleStatus ⟨2024, 1, 10⟩ c4income) := by decide

/-- Claim C4 (amended): the full update always re-establishes the payment-date
invariant; the status toggle clears the payment date whenever the status
leaves paid (for any kind) and preserves the invariant for expense-kind
transactions; bulk mark-as-paid preserves the invariant provided every
targeted id belongs to an expense-kind transaction.  (Toggling or
bulk-marking an income transaction to paid sets a payment date on it, which
is why the kind restrictions are needed.) -/
theorem payment_date_invariant_amended (u t : Despesa) (today paymentDate : YMD)
    (ids : List String) (despesas : List Despesa)
    (hexp : t.type = .expense)
    (hall : ∀ x ∈ despesas, paymentDateInvariant x)
    (hids : ∀ x ∈ despesas, x.id ∈ ids → x.type = .expense) :
    paymentDateInvariant (updateDespesaFinal u) ∧
    paymentDateInvariant (toggleStatus today t) ∧
    (∀ v : Despesa, v.status = .paid → (toggleStatus today v).paymentDate = none) ∧
    (∀ x ∈ markAsPaidLocal ids paymentDate despesas, paymentDateInvariant x) := by
  refine ⟨?_, ?_, ?_, ?_⟩
  · intro hne
    by_cases hc : u.status = .paid ∧ u.type = .expense
    · simpa [updateDespesaFinal] using hc
    · exfalso
      simp [updateDespesaFinal, hc] at hne
  · intro hne
    by_cases hpaid : t.status = .paid
    · exfalso
      simp [toggleStatus, hpaid] at hne
    · constructor
      · simp [toggleStatus, hpaid]
      · simpa [toggleStatus] using hexp
  · intro v hv
    simp [toggleStatus, hv]
  · intro x hx
    rcases List.mem_map.mp hx with ⟨y, hy, rfl⟩
    by_cases hc : ids.contains y.id = true
    · have hmem : y.id ∈ ids := by simpa using hc
      intro _
      exact ⟨by simp [hmem], by simpa [hmem] using hids y hy hmem⟩
    · have hmem : ¬ y.id ∈ ids := by simpa using hc
      simpa [hmem] using hall y hy

/-- A pending expense transaction used by the C4 witness. -/
def c4expense : Despesa :=
  { id := "e1", title := "Luz", amount := 50, type := .expense,
    category := "Casa", date := ⟨2024, 1, 3⟩, status := .pending }

/-- Witness for the amended C4 at concrete inputs. -/
theorem payment_date_invariant_amended_witness :
    (c4expense.type = .expense ∧
     (∀ x ∈ [c4expense], paymentDateInvariant x) ∧
     (∀ x ∈ [c4expense], x.id ∈ ["e1"] → x.type = .expense)) ∧
    (paymentDateInvariant (updateDespesaFinal c4income) ∧
     paymentDateInvariant (toggleStatus ⟨2024, 2, 1⟩ c4expense) ∧
     (∀ v : Despesa, v.status = .paid → (toggleStatus ⟨2024, 2, 1⟩ v).paymentDate = none) ∧
     (∀ x ∈ markAsPaidLocal ["e1"] ⟨2024, 2, 2⟩ [c4expense], paymentDateInvariant x)) :=
  ⟨⟨by decide, by decide, by decide⟩,
   payment_date_invariant_amended c4income c4expense ⟨2024, 2, 1⟩ ⟨2024, 2, 2⟩
     ["e1"] [c4expense] (by decide) (by decide) (by decide)⟩

/-! ## C5: per-category budget report (`BalanceByCategory`) -/

/-- One row of the `BalanceByCategory` report. -/
structure CategoryRow where
  id : String
  name : String
  budget : ℚ
  spent : ℚ
  balance : ℚ
  percentage : ℚ
deriving DecidableEq, Repr

/-- The `spent` reduction of `BalanceByCategory`: fold `sum + e.amount` over
the expense-kind transactions whose category name matches. -/
def spentFor (expenses : List Despesa) (catName : String) : ℚ :=
  (expenses.filter fun e => e.category == catName && e.type == .expense).foldl
    (fun sum e => sum + e.amount) 0

/-- The row built for one category by `BalanceByCategory` (`cat.budget || 0`
is `getD 0`: JS `||` maps both `undefined` and `0` to `0`). -/
def mkCategoryRow (expenses : List Despesa) (cat : Category) : CategoryRow :=
  let budget := cat.budget.getD 0
  let spent := spentFor expenses cat.name
  let balance := budget - spent
  let percentage : ℚ :=
    if budget > 0 then (spent / budget) * 100 else if spent > 0 then 100 else 0
  { id := cat.id, name := cat.name, budget := budget, spent := spent,
    balance := balance, percentage := percentage }

/-- Row comparison used by the report's descending sort on `percentage`. -/
def rowGE (a b : CategoryRow) : Prop :=
  b.percentage ≤ a.percentage

instance : DecidableRel rowGE :=
  fun a b => inferInstanceAs (Decidable (b.percentage ≤ a.percentage))

instance : IsTotal CategoryRow rowGE :=
  ⟨fun a b => le_total b.percentage a.percentage⟩

instance : IsTrans CategoryRow rowGE :=
  ⟨fun _ _ _ h1 h2 => le_trans h2 h1⟩

/-- The `data` memo of `BalanceByCategory`: map the expense/both categories to
rows and sort by descending budget-usage percentage.  (The source uses
`Array.prototype.sort` with comparator `b.percentage - a.percentage`; any
compliant sort returns a permutation ordered by `rowGE`, which is all the
claims use, so it is embedded as an insertion sort.) -/
def balanceByCategoryData (categories : List Category) (expenses : List Despesa) :
    List CategoryRow :=
  let relevantCategories := categories.filter fun c => c.type == .expense || c.type == .both
  List.insertionSort rowGE (relevantCategories.map (mkCategoryRow expenses))

/-- The `totals` reduction of `BalanceByCategory` over the report rows. -/
def balanceByCategoryTotals (data : List CategoryRow) : ℚ × ℚ × ℚ :=
  data.foldl
    (fun acc curr => (acc.1 + curr.budget, acc.2.1 + curr.spent, acc.2.2 + curr.balance))
    (0, 0, 0)

/-- The `totalPercentage` derivation of `BalanceByCategory` on the summed
`(budget, spent, balance)` triple. -/
def totalPercentage (totals : ℚ × ℚ × ℚ) : ℚ :=
  if totals.1 > 0 then (totals.2.1 / totals.1) * 100
  else if totals.2.1 > 0 then 100 else 0

theorem foldl_add_amount (l : List Despesa) (a : ℚ) :
    l.foldl (fun sum e => sum + e.amount) a = a + sumAmounts l := by
  induction l generalizing a with
  | nil => simp [sumAmounts]
  | cons x l ih => simp [sumAmounts, ih, add_assoc]

theorem totals_foldl (l : List CategoryRow) (a b c : ℚ) :
    l.foldl
      (fun acc curr => (acc.1 + curr.budget, acc.2.1 + curr.spent, acc.2.2 + curr.balance))
      (a, b, c) =
    (a + (l.map CategoryRow.budget).sum, b + (l.map CategoryRow.spent).sum,
     c + (l.map CategoryRow.balance).sum) := by
  induction l generalizing a b c with
  | nil => simp
  | cons x l ih => simp [ih, add_assoc]

/-- Claim C5: the report has one row per expense-or-both category, each row's
`spent` is the matching expense sum and its `percentage` follows the
budget-positive / spent-positive formula; the rows are sorted descending by
`percentage`; and the totals row sums budget/spent/balance over all rows and
applies the same percentage formula to the summed values. -/
theorem balance_by_category_correct (categories : List Category) (expenses : List Despesa) :
    let relevant := categories.filter fun c => c.type == .expense || c.type == .both
    let rows := balanceByCategoryData categories expenses
    let B := ((relevant.map (mkCategoryRow expenses)).map CategoryRow.budget).sum
    let S := ((relevant.map (mkCategoryRow expenses)).map CategoryRow.spent).sum
    let Bal := ((relevant.map (mkCategoryRow expenses)).map CategoryRow.balance).sum
    List.Perm rows (relevant.map (mkCategoryRow expenses)) ∧
    rows.length = relevant.length ∧
    (∀ row ∈ rows, ∃ cat ∈ relevant, row = mkCategoryRow expenses cat) ∧
    (∀ cat : Category,
      (mkCategoryRow expenses cat).spent =
        sumAmounts (expenses.filter fun e => e.category == cat.name && e.type == .expense) ∧
      (mkCategoryRow expenses cat).budget = cat.budget.getD 0 ∧
      (mkCategoryRow expenses cat).balance =
        cat.budget.getD 0 - (mkCategoryRow expenses cat).spent ∧
      (mkCategoryRow expenses cat).percentage =
        (if cat.budget.getD 0 > 0 then
          ((mkCategoryRow expenses cat).spent / cat.budget.getD 0) * 100
         else if (mkCategoryRow expenses cat).spent > 0 then 100 else 0)) ∧
    List.Sorted rowGE rows ∧
    balanceByCategoryTotals rows = (B, S, Bal) ∧
    totalPercentage (balanceByCategoryTotals rows) =
      (if B > 0 then (S / B) * 100 else if S > 0 then 100 else 0) := by
  intro relevant rows B S Bal
  have hperm : List.Perm rows (relevant.map (mkCategoryRow expenses)) :=
    List.perm_insertionSort rowGE (relevant.map (mkCategoryRow expenses))
  have hspent : ∀ cat : Category, spentFor expenses cat.name =
      sumAmounts (expenses.filter fun e => e.category == cat.name && e.type == .expense) := by
    intro cat
    unfold spentFor
    rw [foldl_add_amount, zero_add]
  have htotals : balanceByCategoryTotals rows = (B, S, Bal) := by
    show List.foldl _ (0, 0, 0) rows = _
    rw [totals_foldl, zero_add, zero_add, zero_add,
      (hperm.map CategoryRow.budget).sum_eq, (hperm.map CategoryRow.spent).sum_eq,
      (hperm.map CategoryRow.balance).sum_eq]
  refine ⟨hperm, hperm.length_eq.trans (List.length_map _ _), ?_, ?_, ?_, htotals, ?_⟩
  · intro row hrow
    rcases List.mem_map.mp (hperm.mem_iff.mp hrow) with ⟨cat, hcat, hEq⟩
    exact ⟨cat, hcat, hEq.symm⟩
  · intro cat
    refine ⟨?_, rfl, rfl, rfl⟩
    show spentFor expenses cat.name = _
    exact hspent cat
  · exact List.sorted_insertionSort rowGE (relevant.map (mkCategoryRow expenses))
  · rw [htotals]
    rfl

/-! ## C6/C8/C10: category handlers of the App component

The handlers are embedded as pure functions over the component's
`(categories, despesas)` state that also return the list of storage calls they
issue; the provider's replies (`uuidv4` draws, rows echoed back by inserts)
are explicit arguments. -/

/-- The category/transaction state held by the App component. -/
structure AppState where
  categories : List Category
  despesas : List Despesa
deriving DecidableEq, Repr

/-- A call issued to the persistence gateway (`dataService`). -/
inductive StorageCall
  | insertCategory (c : Category) (dataContextId : String)
  | updateCategoryRow (c : Category)
  | deleteCategoryRow (id : String)
deriving DecidableEq, Repr

/-- Outcome surfaced to the user by `requestDeleteCategory`. -/
inductive DeleteCategoryOutcome
  | notFound
  | integrityError
  | confirmRequested (cat : Category)
deriving DecidableEq, Repr

/-- `requestDeleteCategory`: look the category up by id; if any transaction
references it by name, show the integrity error and stop; otherwise open the
confirmation modal.  No storage call is issued at this stage. -/
def requestDeleteCategory (st : AppState) (id : String) :
    DeleteCategoryOutcome × AppState × List StorageCall :=
  match st.categories.find? (fun c => c.id == id) with
  | none => (.notFound, st, [])
  | some categoryToDelete =>
    if st.despesas.any (fun t => t.category == categoryToDelete.name) then
      (.integrityError, st, [])
    else
      (.confirmRequested categoryToDelete, st, [])

/-- The `onConfirm` continuation of the delete-category modal: issue the
storage delete and drop the category from state. -/
def confirmDeleteCategory (st : AppState) (id : String) : AppState × List StorageCall :=
  ({ st with categories := st.categories.filter (fun c => !(c.id == id)) },
   [.deleteCategoryRow id])

/-- The whole delete-category interaction: the request step followed, only
when a confirmation was requested and the user confirms, by the confirm
step. -/
def deleteCategoryFlow (st : AppState) (id : String) (userConfirms : Bool) :
    DeleteCategoryOutcome × AppState × List StorageCall :=
  match requestDeleteCategory st id with
  | (.confirmRequested cat, st1, calls1) =>
    if userConfirms then
      let r := confirmDeleteCategory st1 id
      (.confirmRequested cat, r.1, calls1 ++ r.2)
    else
      (.confirmRequested cat, st1, calls1)
  | other => other

/-- Claim C6: whenever some transaction in the active context references
category `cat` by name, the delete request is refused locally: the outcome is
the integrity error, the state (category list included) is unchanged, and no
storage call is issued — whatever the referencing transaction's status or
kind, and whether or not the user would have confirmed. -/
theorem category_delete_refused_when_in_use (st : AppState) (id : String)
    (cat : Category) (t : Despesa) (userConfirms : Bool)
    (hfind : st.categories.find? (fun c => c.id == id) = some cat)
    (ht : t ∈ st.despesas) (hname : t.category = cat.name) :
    requestDeleteCategory st id = (.integrityError, st, []) ∧
    deleteCategoryFlow st id userConfirms = (.integrityError, st, []) := by
  have hany : st.despesas.any (fun x => x.category == cat.name) = true := by
    rw [List.any_eq_true]
    exact ⟨t, ht, by simp [hname]⟩
  have hreq : requestDeleteCategory st id = (.integrityError, st, []) := by
    unfold requestDeleteCategory
    rw [hfind]
    simp [hany]
  refine ⟨hreq, ?_⟩
  unfold deleteCategoryFlow
  rw [hreq]

/-- Concrete state for the C6 witness: one category referenced by one paid
income transaction (kind and status deliberately not expense/pending). -/
def c6state : AppState :=
  { categories := [{ id := "c1", name := "Trabalho", type := .income, budget := some 0 }],
    despesas := [{ id := "t1", title := "Salario", amount := 100, type := .income,
                   category := "Trabalho", date := ⟨2024, 1, 5⟩, status := .paid }] }

/-- Witness for C6 at the concrete state. -/
theorem category_delete_refused_when_in_use_witness :
    (c6state.categories.find? (fun c => c.id == "c1") =
       some { id := "c1", name := "Trabalho", type := .income, budget := some 0 } ∧
     ({ id := "t1", title := "Salario", amount := 100, type := .income,
        category := "Trabalho", date := ⟨2024, 1, 5⟩, status := .paid } : Despesa)
       ∈ c6state.despesas ∧
     ({ id := "t1", title := "Salario", amount := 100, type := .income,
        category := "Trabalho", date := ⟨2024, 1, 5⟩, status := .paid } : Despesa).category =
       ({ id := "c1", name := "Trabalho", type := .income, budget := some 0 } : Category).name) ∧
    (requestDeleteCategory c6state "c1" = (.integrityError, c6state, []) ∧
     deleteCategoryFlow c6state "c1" true = (.integrityError, c6state, [])) :=
  ⟨⟨by decide, by decide, by decide⟩,
   category_delete_refused_when_in_use c6state "c1"
     { id := "c1", name := "Trabalho", type := .income, budget := some 0 }
     { id := "t1", title := "Salario", amount := 100, type := .income,
       category := "Trabalho", date := ⟨2024, 1, 5⟩, status := .paid }
     true (by decide) (by decide) (by decide)⟩

/-- JS `String.prototype.toLowerCase` embedded as per-character lowercasing
(the category names at stake are plain text; this matches `toLowerCase` on
them and, unlike `String.toLower`, reduces inside the kernel). -/
def jsToLowerCase (s : String) : String :=
  ⟨s.data.map Char.toLower⟩

/-- Outcome surfaced by `handleAddCategory`. -/
inductive AddCategoryOutcome
  | duplicate
  | added (c : Category)
  | storageFailed
deriving DecidableEq, Repr

/-- `handleAddCategory`: refuse case-insensitive duplicate names before any
storage call; otherwise insert `(uuidv4(), name, type, budget || 0)` and, when
the gateway echoes a saved row, append it to state.  `freshId` stands for the
`uuidv4()` draw and `storageReply` for the row the insert returns (`none`
models a failed insert). -/
def handleAddCategory (st : AppState) (dataContextId freshId : String)
    (storageReply : Option Category) (name : String) (type : CategoryType)
    (budget : Option ℚ) : AddCategoryOutcome × AppState × List StorageCall :=
  if st.categories.any (fun c => jsToLowerCase c.name == jsToLowerCase name) then
    (.duplicate, st, [])
  else
    let newCat : Category :=
      { id := freshId, name := name, type := type, budget := some (budget.getD 0) }
    match storageReply with
    | some savedCat =>
      (.added savedCat, { st with categories := st.categories ++ [savedCat] },
       [.insertCategory newCat dataContextId])
    | none => (.storageFailed, st, [.insertCategory newCat dataContextId])

/-- Claim C8: a category creation whose name case-insensitively equals an
existing category's name is rejected with no storage insert issued and the
category list unchanged — for every fresh id, storage reply, kind and
budget. -/
theorem category_add_rejects_duplicate_name (st : AppState)
    (dataContextId freshId : String) (storageReply : Option Category)
    (name : String) (type : CategoryType) (budget : Option ℚ) (c : Category)
    (hc : c ∈ st.categories) (hdup : jsToLowerCase c.name = jsToLowerCase name) :
    handleAddCategory st dataContextId freshId storageReply name type budget =
      (.duplicate, st, []) := by
  have hany : st.categories.any (fun x => jsToLowerCase x.name == jsToLowerCase name) = true := by
    rw [List.any_eq_true]
    exact ⟨c, hc, by simp [hdup]⟩
  unfold handleAddCategory
  simp [hany]

/-- Concrete state for the C8 witness: one category named `Casa`. -/
def c8state : AppState :=
  { categories := [{ id := "c1", name := "Casa", type := .expense, budget := some 100 }],
    despesas := [] }

/-- The saved row echoed back by the (never reached) insert in the C8
witness scenario. -/
def c8saved : Category :=
  { id := "c2", name := "casa", type := .expense, budget := some 0 }

/-- Witness for C8: creating `casa` next to the existing `Casa` is refused. -/
theorem category_add_rejects_duplicate_name_witness :
    (({ id := "c1", name := "Casa", type := .expense, budget := some 100 } : Category)
       ∈ c8state.categories ∧
     (jsToLowerCase "Casa" = jsToLowerCase "casa")) ∧
    handleAddCategory c8state "ctx" "c2" (some c8saved) "casa" .expense none =
      (.duplicate, c8state, []) :=
  ⟨⟨by decide, by decide⟩,
   category_add_rejects_duplicate_name c8state "ctx" "c2" (some c8saved)
     "casa" .expense none
     { id := "c1", name := "Casa", type := .expense, budget := some 100 }
     (by decide) (by decide)⟩

/-- `handleEditCategory` (success path of `dataService.updateCategory`):
rebuild the category from the form fields, issue the storage update, and
replace the matching entry in state.  No duplicate-name check is performed. -/
def handleEditCategory (st : AppState) (id name : String) (type : CategoryType)
    (budget : Option ℚ) : AppState × List StorageCall :=
  let updated : Category := { id := id, name := name, type := type, budget := some (budget.getD 0) }
  ({ st with categories := st.categories.map (fun c => if c.id == id then updated else c) },
   [.updateCategoryRow updated])

/-- Claim C10: from the empty state, two category creations with distinct
names succeed; renaming the second to `food` — case-insensitively equal to the
existing `Food` — is not refused: the storage update is issued and the
resulting state holds two distinct categories with the same lower-cased name,
so update does not preserve the uniqueness that creation enforces. -/
theorem category_update_allows_duplicate_names :
    (handleAddCategory ⟨[], []⟩ "ctx" "c1"
        (some { id := "c1", name := "Food", type := .expense, budget := some 0 })
        "Food" .expense none).1 = .added { id := "c1", name := "Food", type := .expense, budget := some 0 } ∧
    (let st1 := (handleAddCategory ⟨[], []⟩ "ctx" "c1"
        (some { id := "c1", name := "Food", type := .expense, budget := some 0 })
        "Food" .expense none).2.1
     (handleAddCategory st1 "ctx" "c2"
        (some { id := "c2", name := "Rent", type := .expense, budget := some 0 })
        "Rent" .expense none).1 = .added { id := "c2", name := "Rent", type := .expense, budget := some 0 } ∧
     (let st2 := (handleAddCategory st1 "ctx" "c2"
        (some { id := "c2", name := "Rent", type := .expense, budget := some 0 })
        "Rent" .expense none).2.1
      let r := handleEditCategory st2 "c2" "food" .expense none
      r.2 = [.updateCategoryRow { id := "c2", name := "food", type := .expense, budget := some 0 }] ∧
      r.1.categories = [{ id := "c1", name := "Food", type := .expense, budget := some 0 },
                        { id := "c2", name := "food", type := .expense, budget := some 0 }] ∧
      ∃ a ∈ r.1.categories, ∃ b ∈ r.1.categories,
        a.id ≠ b.id ∧ jsToLowerCase a.name = jsToLowerCase b.name)) := by decide

/-! ## C7: member creation (`authService.addMember`) -/

/-- The in-memory `User` shape of `types.ts` (members list omitted: the
claims below concern the inserted row). -/
structure UserAcct where
  id : String
  name : String
  email : String
  parentId : Option String := none
  dataContextId : String
deriving DecidableEq, Repr

/-- An `app_users` storage row as inserted by the auth service. -/
structure AppUserRow where
  id : String
  name : String
  email : String
  password : String
  parent_id : Option String := none
  data_context_id : String
deriving DecidableEq, Repr

/-- The `newMemberPayload` built by `addMember`: parent reference is the
owner's id and the data-context id is shared or the fresh member id depending
on `shareData`.  `newMemberId` stands for the `uuidv4()` draw. -/
def addMemberPayload (adminUser : UserAcct) (name email _pass : String)
    (shareData : Bool) (newMemberId : String) : AppUserRow :=
  { id := newMemberId
    name := name
    email := email
    password := "managed_profile"
    parent_id := some adminUser.id
    data_context_id := if shareData then adminUser.dataContextId else newMemberId }

/-- Claim C7: with `shareData = true` the member row carries exactly the
owner's data-context id; with `shareData = false` it carries the freshly
generated member id, which (under uuid freshness) differs from the owner's
data-context id; in both cases the parent reference is the owner's id. -/
theorem add_member_data_context (adminUser : UserAcct) (name email pass newMemberId : String)
    (hfresh : newMemberId ≠ adminUser.dataContextId) :
    ((addMemberPayload adminUser name email pass true newMemberId).data_context_id =
        adminUser.dataContextId ∧
     (addMemberPayload adminUser name email pass true newMemberId).parent_id =
        some adminUser.id) ∧
    ((addMemberPayload adminUser name email pass false newMemberId).data_context_id =
        newMemberId ∧
     (addMemberPayload adminUser name email pass false newMemberId).data_context_id ≠
        adminUser.dataContextId ∧
     (addMemberPayload adminUser name email pass false newMemberId).parent_id =
        some adminUser.id) := by
  exact ⟨⟨rfl, rfl⟩, ⟨rfl, hfresh, rfl⟩⟩

/-- The owner account used by the C7 witness. -/
def c7owner : UserAcct :=
  { id := "owner-1", name := "Ana", email := "ana@mail", dataContextId := "owner-1" }

/-- Witness for C7 at a concrete owner and fresh member id. -/
theorem add_member_data_context_witness :
    ("member-1" ≠ c7owner.dataContextId) ∧
    (((addMemberPayload c7owner "Bia" "bia@mail" "pw" true "member-1").data_context_id =
        c7owner.dataContextId ∧
      (addMemberPayload c7owner "Bia" "bia@mail" "pw" true "member-1").parent_id =
        some c7owner.id) ∧
     ((addMemberPayload c7owner "Bia" "bia@mail" "pw" false "member-1").data_context_id =
        "member-1" ∧
      (addMemberPayload c7owner "Bia" "bia@mail" "pw" false "member-1").data_context_id ≠
        c7owner.dataContextId ∧
      (addMemberPayload c7owner "Bia" "bia@mail" "pw" false "member-1").parent_id =
        some c7owner.id)) :=
  ⟨by decide, add_member_data_context c7owner "Bia" "bia@mail" "pw" "member-1" (by decide)⟩

/-! ## C9: registration and login flows (`authService.register` / `login`)

The Supabase calls are embedded through environment records carrying the
provider's replies; the flows return the outcome together with the list of
auth/storage effects they perform, in order. -/

/-- The authenticated identity returned by the auth provider
(`authData.user`); `metaName` is `user_metadata.name`. -/
structure AuthUser where
  id : String
  metaName : Option String := none
deriving DecidableEq, Repr

/-- Effects performed by the auth flows. -/
inductive AuthEffect
  | insertProfile (row : AppUserRow)
  | fetchProfile (id : String)
  | fetchMembers (parentId : String)
  | signOut
deriving DecidableEq, Repr

/-- Result of an auth flow (`pendingConfirmation` models the thrown
`Registro iniciado! Verifique seu email...` signal of `register`). -/
inductive AuthResult
  | ok (row : AppUserRow) (members : List AppUserRow)
  | err (msg : String)
  | pendingConfirmation
deriving DecidableEq, Repr

/-- JS `String.prototype.includes`, embedded via `splitOn` (a non-empty
pattern occurs in `s` iff splitting on it yields more than one piece). -/
def includesSub (s pat : String) : Bool :=
  (s.splitOn pat).length > 1

/-- The rate-limit message rewriting applied to auth errors. -/
def mapRateLimit (msg friendly : String) : String :=
  if includesSub msg "rate limit" then friendly else msg

/-- Provider replies consumed by `register`. -/
structure RegisterEnv where
  signUpError : Option String
  signUpUser : Option AuthUser
  signUpSession : Bool
  insertProfileResult : Except String AppUserRow
  existingProfile : Option AppUserRow
deriving Repr

/-- `authService.register`: sign up; without a session, signal pending
confirmation and create no row; with a session, insert the profile row
(id and data-context id both the auth id), recovering an existing row or
signing out on failure. -/
def register (env : RegisterEnv) (name email _pass : String) :
    AuthResult × List AuthEffect :=
  match env.signUpError with
  | some msg =>
    (.err (mapRateLimit msg "Muitas tentativas de registro. Aguarde alguns minutos."), [])
  | none =>
    match env.signUpUser with
    | none => (.err "Erro desconhecido ao registrar.", [])
    | some authUser =>
      if !env.signUpSession then
        (.pendingConfirmation, [])
      else
        let newUserPayload : AppUserRow :=
          { id := authUser.id, name := name, email := email, password := "***",
            parent_id := none, data_context_id := authUser.id }
        match env.insertProfileResult with
        | .ok profile => (.ok profile [], [.insertProfile newUserPayload])
        | .error dbError =>
          match env.existingProfile with
          | some existingProfile =>
            (.ok existingProfile [],
             [.insertProfile newUserPayload, .fetchProfile authUser.id])
          | none =>
            (.err ("Erro ao criar perfil no banco de dados: " ++ dbError),
             [.insertProfile newUserPayload, .fetchProfile authUser.id, .signOut])

/-- Provider replies consumed by `login`. -/
structure LoginEnv where
  signInError : Option String
  signInUser : Option AuthUser
  profile : Option AppUserRow
  insertProfileResult : Except String AppUserRow
  members : List AppUserRow
deriving Repr

/-- Profile name derived from the authenticated identity on self-healing
login: `user_metadata?.name || email.split('@')[0]` (JS `||` also skips an
empty metadata name). -/
def loginUserName (authUser : AuthUser) (email : String) : String :=
  match authUser.metaName with
  | some n => if n = "" then (email.splitOn "@").headD "" else n
  | none => (email.splitOn "@").headD ""

/-- The recovery row `login` inserts when the profile is missing: id and
data-context id are both the authenticated identity's id. -/
def loginInsertPayload (authUser : AuthUser) (email : String) : AppUserRow :=
  { id := authUser.id, name := loginUserName authUser email, email := email,
    password := "***", parent_id := none, data_context_id := authUser.id }

/-- `authService.login`: authenticate, load the profile row by id; when
absent, create it on the fly from the authenticated identity, signing out and
failing if that creation fails; finally load the member accounts. -/
def login (env : LoginEnv) (email _pass : String) : AuthResult × List AuthEffect :=
  match env.signInError with
  | some msg =>
    (.err (mapRateLimit msg "Muitas tentativas de login. Aguarde alguns minutos e tente novamente."),
     [])
  | none =>
    match env.signInUser with
    | none => (.err "Erro ao fazer login", [])
    | some authUser =>
      match env.profile with
      | some profile =>
        (.ok profile env.members, [.fetchProfile authUser.id, .fetchMembers profile.id])
      | none =>
        match env.insertProfileResult with
        | .error createError =>
          (.err ("Perfil de usuário não encontrado e não foi possível criá-lo: " ++ createError),
           [.fetchProfile authUser.id, .insertProfile (loginInsertPayload authUser email),
            .signOut])
        | .ok newProfile =>
          (.ok newProfile env.members,
           [.fetchProfile authUser.id, .insertProfile (loginInsertPayload authUser email),
            .fetchMembers newProfile.id])

/-- Claim C9: (a) a registration whose auth step yields no session creates no
account row (no effects at all) and signals pending confirmation; (b) a later
successful login that finds no account row inserts one whose data-context id
equals its own id and succeeds; (c) if that insertion fails, login signs out
the auth session and fails. -/
theorem register_login_self_healing (renv : RegisterEnv) (lenv lenv2 : LoginEnv)
    (name email pass : String) (au : AuthUser) (p : AppUserRow) (e : String)
    (hra : renv.signUpError = none) (hrb : renv.signUpUser = some au)
    (hrc : renv.signUpSession = false)
    (hla : lenv.signInError = none) (hlb : lenv.signInUser = some au)
    (hlc : lenv.profile = none) (hld : lenv.insertProfileResult = .ok p)
    (hma : lenv2.signInError = none) (hmb : lenv2.signInUser = some au)
    (hmc : lenv2.profile = none) (hmd : lenv2.insertProfileResult = .error e) :
    register renv name email pass = (.pendingConfirmation, []) ∧
    (login lenv email pass =
       (.ok p lenv.members,
        [.fetchProfile au.id, .insertProfile (loginInsertPayload au email),
         .fetchMembers p.id]) ∧
     (loginInsertPayload au email).data_context_id = (loginInsertPayload au email).id ∧
     .insertProfile (loginInsertPayload au email) ∈ (login lenv email pass).2) ∧
    ((login lenv2 email pass).1 =
       .err ("Perfil de usuário não encontrado e não foi possível criá-lo: " ++ e) ∧
     .signOut ∈ (login lenv2 email pass).2) := by
  have hreg : register renv name email pass = (.pendingConfirmation, []) := by
    unfold register
    rw [hra, hrb, hrc]
    rfl
  have hlog : login lenv email pass =
      (.ok p lenv.members,
       [.fetchProfile au.id, .insertProfile (loginInsertPayload au email),
        .fetchMembers p.id]) := by
    unfold login
    rw [hla, hlb, hlc, hld]
  have hlog2 : login lenv2 email pass =
      (.err ("Perfil de usuário não encontrado e não foi possível criá-lo: " ++ e),
       [.fetchProfile au.id, .insertProfile (loginInsertPayload au email), .signOut]) := by
    unfold login
    rw [hma, hmb, hmc, hmd]
  refine ⟨hreg, ⟨hlog, rfl, ?_⟩, ?_, ?_⟩
  · rw [hlog]
    simp
  · rw [hlog2]
  · rw [hlog2]
    simp

/-- Provider replies for the C9 witness, registration leg: sign-up succeeded
but returned no session. -/
def c9renv : RegisterEnv :=
  { signUpError := none, signUpUser := some { id := "u1" }, signUpSession := false,
    insertProfileResult := .error "unreached", existingProfile := none }

/-- The profile row echoed by the successful self-healing insert in the C9
witness. -/
def c9row : AppUserRow :=
  { id := "u1", name := "ana", email := "ana@mail", password := "***",
    data_context_id := "u1" }

/-- Provider replies for the C9 witness, successful self-healing login leg. -/
def c9lenv : LoginEnv :=
  { signInError := none, signInUser := some { id := "u1" }, profile := none,
    insertProfileResult := .ok c9row, members := [] }

/-- Provider replies for the C9 witness, failed profile-creation leg. -/
def c9lenv2 : LoginEnv :=
  { signInError := none, signInUser := some { id := "u1" }, profile := none,
    insertProfileResult := .error "policy denial", members := [] }

/-- Witness for C9 at the three concrete environments. -/
theorem register_login_self_healing_witness :
    (c9renv.signUpError = none ∧ c9renv.signUpUser = some { id := "u1" } ∧
     c9renv.signUpSession = false ∧
     c9lenv.signInError = none ∧ c9lenv.signInUser = some { id := "u1" } ∧
     c9lenv.profile = none ∧ c9lenv.insertProfileResult = .ok c9row ∧
     c9lenv2.signInError = none ∧ c9lenv2.signInUser = some { id := "u1" } ∧
     c9lenv2.profile = none ∧ c9lenv2.insertProfileResult = .error "policy denial") ∧
    (register c9renv "Ana" "ana@mail" "pw" = (.pendingConfirmation, []) ∧
     (login c9lenv "ana@mail" "pw" =
        (.ok c9row c9lenv.members,
         [.fetchProfile ({ id := "u1" } : AuthUser).id,
          .insertProfile (loginInsertPayload { id := "u1" } "ana@mail"),
          .fetchMembers c9row.id]) ∧
      (loginInsertPayload { id := "u1" } "ana@mail").data_context_id =
        (loginInsertPayload { id := "u1" } "ana@mail").id ∧
      .insertProfile (loginInsertPayload { id := "u1" } "ana@mail")
        ∈ (login c9lenv "ana@mail" "pw").2) ∧
     ((login c9lenv2 "ana@mail" "pw").1 =
        .err ("Perfil de usuário não encontrado e não foi possível criá-lo: " ++ "policy denial") ∧
      .signOut ∈ (login c9lenv2 "ana@mail" "pw").2)) :=
  ⟨⟨rfl, rfl, rfl, rfl, rfl, rfl, rfl, rfl, rfl, rfl, rfl⟩,
   register_login_self_healing c9renv c9lenv c9lenv2 "Ana" "ana@mail" "pw"
     { id := "u1" } c9row "policy denial"
     rfl rfl rfl rfl rfl rfl rfl rfl rfl rfl rfl⟩

end Financa
